import Mathlib

/-!
Shallow embedding of `src/plugins/data/public/query/timefilter/get_time.ts`
from the kibana repository, together with theorems about the claims made by
its specification.

The file embeds the two exported functions, `calculateBounds` and `getTime`.
Instants (JS `Date` values and the moment objects returned by
`dateMath.parse`) are modelled as integers (milliseconds since the epoch);
`undefined` values are modelled with `Option`.

The module imports two pieces of the repository that are not part of the
analysed source file: `dateMath.parse` (from `@elastic/datemath`) and the
moment method `toISOString`.  Both are kept abstract: every definition and
theorem is parameterised over an arbitrary parse function
`parse : String → ParseOptions → Option Moment` and an arbitrary rendering
function `toISOString : Moment → String`, so the theorems hold for whatever
those imports do.  `buildRangeFilter` (from `../../../common`) is modelled
from the specification, see its doc comment.
-/

set_option autoImplicit false

namespace GetTime

/-- A moment instant, as milliseconds since the epoch. -/
abbrev Moment := Int

/-- A JS `Date` timestamp, as milliseconds since the epoch. -/
abbrev JSDate := Int

/-- The options record accepted by `dateMath.parse`: an optional `roundUp`
flag (absent is falsy, i.e. `false`) and an optional `forceNow` date. -/
structure ParseOptions where
  roundUp : Bool := false
  forceNow : Option JSDate := none
  deriving DecidableEq

/-- The shape of `dateMath.parse`: an expression string and options give a
moment, or `undefined` (`none`) when the expression yields no instant. -/
abbrev DateMathParse := String → ParseOptions → Option Moment

/-- `TimeRange`: a pair of (possibly relative) date expressions. -/
structure TimeRange where
  «from» : String
  «to» : String
  deriving DecidableEq

/-- `CalculateBoundsOptions` from the source: `{ forceNow?: Date }`. -/
structure CalculateBoundsOptions where
  forceNow : Option JSDate := none
  deriving DecidableEq

/-- The part of `IFieldType` the source reads: the field's `name`. -/
structure IFieldType where
  name : String
  deriving DecidableEq

/-- The part of `IIndexPattern` the source reads: the list of `fields` and
the optional `timeFieldName`. -/
structure IIndexPattern where
  fields : List IFieldType
  timeFieldName : Option String
  deriving DecidableEq

/-- The params object `getTime` builds for the range filter.  Each `Option`
field models the presence or absence of the corresponding key in the JS
object literal (the conditional spreads for `gte` / `lte`). -/
structure RangeFilterParams where
  gte : Option String := none
  lte : Option String := none
  format : Option String := none
  deriving DecidableEq

/-- A range filter: the target field together with its range params. -/
structure RangeFilter where
  field : IFieldType
  params : RangeFilterParams
  deriving DecidableEq

/-- The `{ min, max }` bounds object returned by `calculateBounds`. -/
structure Bounds where
  min : Option Moment
  max : Option Moment
  deriving DecidableEq

/-- `calculateBounds`: parse `timeRange.from` with only `forceNow` set
(`roundUp` defaults to false) and `timeRange.to` with `roundUp: true`. -/
def calculateBounds (parse : DateMathParse) (timeRange : TimeRange)
    (options : CalculateBoundsOptions) : Bounds :=
  { min := parse timeRange.«from» { forceNow := options.forceNow }
    max := parse timeRange.«to» { roundUp := true, forceNow := options.forceNow } }

/-- Modelled from the spec: `buildRangeFilter` is imported from
`../../../common`, which is not part of the analysed source.  The spec says
the utility "emits a range filter" and defines a range filter as "a backend
query fragment constraining a field to an inclusive interval", so
`buildRangeFilter` is a total constructor pairing the target field with the
given params (the index-pattern argument contributes nothing the claims
speak about). -/
def buildRangeFilter (field : IFieldType) (params : RangeFilterParams)
    (_indexPattern : IIndexPattern) : RangeFilter :=
  { field := field, params := params }

/-- `getTime`: return `undefined` when the index pattern is absent or its
time field is not among its fields; otherwise build a range filter over the
time field from the calculated bounds.

The source guards the bounds with `if (!bounds) return;`.  `bounds` is the
object literal just returned by `calculateBounds` and a JS object is always
truthy; the embedding renders the guard as a match on an `Option Bounds`
that is by construction `some`. -/
def getTime (parse : DateMathParse) (toISOString : Moment → String)
    (indexPattern : Option IIndexPattern) (timeRange : TimeRange)
    (forceNow : Option JSDate) : Option RangeFilter :=
  match indexPattern with
  | none => none
  | some indexPattern =>
    match indexPattern.fields.find?
        (fun field => some field.name == indexPattern.timeFieldName) with
    | none => none
    | some timefield =>
      let boundsOpt : Option Bounds :=
        some (calculateBounds parse timeRange { forceNow := forceNow })
      match boundsOpt with
      | none => none
      | some bounds =>
        some (buildRangeFilter timefield
          { gte := Option.map toISOString bounds.min
            lte := Option.map toISOString bounds.max
            format := some "strict_date_optional_time" }
          indexPattern)

/-! Concrete instances used to evaluate the definitions at specific inputs. -/

/-- A parse function under which no expression yields an instant. -/
def parseNone : DateMathParse := fun _ _ => none

/-- A parse function under which exactly the expression `"1000"` yields an
instant: `1000`, or `1999` when rounded up to the end of its unit. -/
def parseOnly1000 : DateMathParse := fun s o =>
  if s = "1000" then (if o.roundUp then some 1999 else some 1000) else none

/-- A rendering function standing in for `Moment.prototype.toISOString`. -/
def isoOfInt : Moment → String := fun m => toString m

/-- A sample index pattern whose time field `"timestamp"` is among its
fields. -/
def sampleIndexPattern : IIndexPattern :=
  { fields := [{ name := "timestamp" }], timeFieldName := some "timestamp" }

/-- A sample index pattern with no fields at all, so its time field is not
found. -/
def emptyIndexPattern : IIndexPattern :=
  { fields := [], timeFieldName := some "timestamp" }

/-- A sample time range. -/
def sampleRange : TimeRange := { «from» := "now-15m", «to» := "now" }

/-- A time range both of whose bounds are the expression `"1000"`. -/
def range1000 : TimeRange := { «from» := "1000", «to» := "1000" }

/-- A time range whose lower bound is `"1000"` and whose upper bound is an
expression that yields no instant under `parseOnly1000`. -/
def rangeFromOnly : TimeRange := { «from» := "1000", «to» := "later" }

/-- A time range whose upper bound is `"1000"` and whose lower bound is an
expression that yields no instant under `parseOnly1000`. -/
def rangeToOnly : TimeRange := { «from» := "earlier", «to» := "1000" }

/-- The filter `getTime` produces from `parseOnly1000`, `isoOfInt`,
`sampleIndexPattern` and `range1000`. -/
def filter1000 : RangeFilter :=
  { field := { name := "timestamp" }
    params := { gte := some "1000", lte := some "1999",
                format := some "strict_date_optional_time" } }

/-! ## Helper lemmas -/

/-- When the index pattern is present and its time field is found, `getTime`
reduces to `buildRangeFilter` applied to the rendered bounds. -/
theorem getTime_found {parse : DateMathParse} {toISOString : Moment → String}
    {ip : IIndexPattern} {tf : IFieldType} (timeRange : TimeRange)
    (forceNow : Option JSDate)
    (h : ip.fields.find? (fun field => some field.name == ip.timeFieldName) = some tf) :
    getTime parse toISOString (some ip) timeRange forceNow =
      some (buildRangeFilter tf
        { gte := Option.map toISOString
            (calculateBounds parse timeRange { forceNow := forceNow }).min
          lte := Option.map toISOString
            (calculateBounds parse timeRange { forceNow := forceNow }).max
          format := some "strict_date_optional_time" } ip) := by
  simp only [getTime, h]

/-! ## Claims -/

/-- C1 (counterexample): with a parse function under which neither bound of
the range yields an instant, and an index pattern that does contain its time
field, `getTime` does not return `undefined` — refuting the claim that it
does. -/
theorem getTime_unparseable_counterexample :
    getTime parseNone isoOfInt (some sampleIndexPattern) sampleRange none ≠ none := by
  decide

/-- C1 (amended): for every time range whose bounds are both unparseable and
every index pattern containing its time field, `getTime` raises no fault but
returns, instead of `undefined`, a range filter over the time field whose
params carry neither `gte` nor `lte`, only the `format` key. -/
theorem getTime_unparseable_bounds_filter
    (parse : DateMathParse) (toISOString : Moment → String)
    (ip : IIndexPattern) (tf : IFieldType) (timeRange : TimeRange)
    (forceNow : Option JSDate)
    (hfind : ip.fields.find? (fun field => some field.name == ip.timeFieldName) = some tf)
    (hfrom : parse timeRange.«from» { forceNow := forceNow } = none)
    (hto : parse timeRange.«to» { roundUp := true, forceNow := forceNow } = none) :
    getTime parse toISOString (some ip) timeRange forceNow =
      some { field := tf
             params := { gte := none, lte := none,
                         format := some "strict_date_optional_time" } } := by
  rw [getTime_found timeRange forceNow hfind]
  simp [calculateBounds, buildRangeFilter, hfrom, hto]

/-- C1 (amended) at a concrete input: `parseNone` parses nothing, and
`sampleIndexPattern` contains its time field `"timestamp"`. -/
theorem getTime_unparseable_bounds_filter_witness :
    getTime parseNone isoOfInt (some sampleIndexPattern) sampleRange none =
      some { field := { name := "timestamp" }
             params := { gte := none, lte := none,
                         format := some "strict_date_optional_time" } } :=
  getTime_unparseable_bounds_filter parseNone isoOfInt sampleIndexPattern
    { name := "timestamp" } sampleRange none (by decide) rfl rfl

/-- C2: for every time range and every optional `forceNow`, `getTime`
returns `undefined` (and raises no fault) when the index pattern is
`undefined`, and likewise when no field of `indexPattern.fields` has a name
equal to `indexPattern.timeFieldName`. -/
theorem getTime_none_of_missing_pattern_or_timefield
    (parse : DateMathParse) (toISOString : Moment → String)
    (timeRange : TimeRange) (forceNow : Option JSDate) :
    getTime parse toISOString none timeRange forceNow = none ∧
    ∀ ip : IIndexPattern,
      (∀ field ∈ ip.fields, some field.name ≠ ip.timeFieldName) →
      getTime parse toISOString (some ip) timeRange forceNow = none := by
  refine ⟨rfl, fun ip h => ?_⟩
  have hfind : ip.fields.find?
      (fun field => some field.name == ip.timeFieldName) = none := by
    rw [List.find?_eq_none]
    intro field hmem hbeq
    exact h field hmem (eq_of_beq hbeq)
  simp only [getTime, hfind]

/-- C2 at concrete inputs: an absent index pattern, and an index pattern
with no fields. -/
theorem getTime_none_of_missing_pattern_or_timefield_witness :
    getTime parseNone isoOfInt none sampleRange none = none ∧
    getTime parseNone isoOfInt (some emptyIndexPattern) sampleRange none = none :=
  ⟨(getTime_none_of_missing_pattern_or_timefield parseNone isoOfInt sampleRange none).1,
   (getTime_none_of_missing_pattern_or_timefield parseNone isoOfInt sampleRange none).2
     emptyIndexPattern (by decide)⟩

/-- C3: `calculateBounds` parses the range's `to` with `roundUp := true` and
its `from` with no rounding (`roundUp := false`), both honoring the optional
`forceNow` override, and returns the pair `{ min, max }` of the two parse
results. -/
theorem calculateBounds_parses_from_plain_to_roundUp
    (parse : DateMathParse) (timeRange : TimeRange)
    (options : CalculateBoundsOptions) :
    calculateBounds parse timeRange options =
      { min := parse timeRange.«from» { roundUp := false, forceNow := options.forceNow }
        max := parse timeRange.«to» { roundUp := true, forceNow := options.forceNow } } :=
  rfl

/-- C4: whenever `getTime` emits a filter, its params put the lower bound
under the inclusive key `gte` and the upper bound under the inclusive key
`lte` — each obtained by rendering the corresponding calculated bound with
`toISOString` (absent exactly when the bound is absent) — and always carry
`format = "strict_date_optional_time"`. -/
theorem getTime_filter_params
    (parse : DateMathParse) (toISOString : Moment → String)
    (indexPattern : Option IIndexPattern) (timeRange : TimeRange)
    (forceNow : Option JSDate) (f : RangeFilter)
    (h : getTime parse toISOString indexPattern timeRange forceNow = some f) :
    f.params.format = some "strict_date_optional_time" ∧
    f.params.gte = Option.map toISOString
      (calculateBounds parse timeRange { forceNow := forceNow }).min ∧
    f.params.lte = Option.map toISOString
      (calculateBounds parse timeRange { forceNow := forceNow }).max := by
  match indexPattern with
  | none => exact absurd h (by simp [getTime])
  | some ip =>
    cases hfind : ip.fields.find?
        (fun field => some field.name == ip.timeFieldName) with
    | none =>
      rw [show getTime parse toISOString (some ip) timeRange forceNow = none by
        simp only [getTime, hfind]] at h
      exact absurd h (by simp)
    | some tf =>
      rw [getTime_found timeRange forceNow hfind] at h
      cases Option.some.inj h
      exact ⟨rfl, rfl, rfl⟩

/-- C4 at a concrete input on which `getTime` emits a filter. -/
theorem getTime_filter_params_witness :
    filter1000.params.format = some "strict_date_optional_time" ∧
    filter1000.params.gte = Option.map isoOfInt
      (calculateBounds parseOnly1000 range1000 { forceNow := none }).min ∧
    filter1000.params.lte = Option.map isoOfInt
      (calculateBounds parseOnly1000 range1000 { forceNow := none }).max :=
  getTime_filter_params parseOnly1000 isoOfInt (some sampleIndexPattern)
    range1000 none filter1000 (by decide)

/-- C5: `getTime` emits a filter only if the target time field exists — on
every input producing a filter the index pattern is defined, the field
lookup finds a field of `indexPattern.fields` whose name equals
`indexPattern.timeFieldName`, and the filter is built over exactly that
field. -/
theorem getTime_filter_requires_timefield
    (parse : DateMathParse) (toISOString : Moment → String)
    (indexPattern : Option IIndexPattern) (timeRange : TimeRange)
    (forceNow : Option JSDate) (f : RangeFilter)
    (h : getTime parse toISOString indexPattern timeRange forceNow = some f) :
    ∃ ip tf, indexPattern = some ip ∧
      ip.fields.find? (fun field => some field.name == ip.timeFieldName) = some tf ∧
      tf ∈ ip.fields ∧ some tf.name = ip.timeFieldName ∧ f.field = tf := by
  match indexPattern with
  | none => exact absurd h (by simp [getTime])
  | some ip =>
    cases hfind : ip.fields.find?
        (fun field => some field.name == ip.timeFieldName) with
    | none =>
      rw [show getTime parse toISOString (some ip) timeRange forceNow = none by
        simp only [getTime, hfind]] at h
      exact absurd h (by simp)
    | some tf =>
      rw [getTime_found timeRange forceNow hfind] at h
      cases Option.some.inj h
      have hp := List.find?_some hfind
      exact ⟨ip, tf, rfl, hfind, List.mem_of_find?_eq_some hfind, eq_of_beq hp, rfl⟩

/-- C5 at a concrete input on which `getTime` emits a filter. -/
theorem getTime_filter_requires_timefield_witness :
    ∃ ip tf, (some sampleIndexPattern : Option IIndexPattern) = some ip ∧
      ip.fields.find? (fun field => some field.name == ip.timeFieldName) = some tf ∧
      tf ∈ ip.fields ∧ some tf.name = ip.timeFieldName ∧ filter1000.field = tf :=
  getTime_filter_requires_timefield parseOnly1000 isoOfInt
    (some sampleIndexPattern) range1000 none filter1000 (by decide)

/-- C6: `calculateBounds` and `getTime` are deterministic given their
arguments — two runs on equal time range, index pattern and `forceNow` give
equal results.  The embedding is purely functional, which reflects the
source's freedom from side effects: it only reads its arguments and builds
fresh objects, mutating neither `timeRange` nor `indexPattern`. -/
theorem getTime_deterministic
    (parse : DateMathParse) (toISOString : Moment → String)
    (ip1 ip2 : Option IIndexPattern) (tr1 tr2 : TimeRange)
    (fn1 fn2 : Option JSDate)
    (hip : ip1 = ip2) (htr : tr1 = tr2) (hfn : fn1 = fn2) :
    getTime parse toISOString ip1 tr1 fn1 = getTime parse toISOString ip2 tr2 fn2 ∧
    calculateBounds parse tr1 { forceNow := fn1 } =
      calculateBounds parse tr2 { forceNow := fn2 } := by
  subst hip htr hfn
  exact ⟨rfl, rfl⟩

/-- C6 at a concrete input. -/
theorem getTime_deterministic_witness :
    getTime parseOnly1000 isoOfInt (some sampleIndexPattern) range1000 none =
      getTime parseOnly1000 isoOfInt (some sampleIndexPattern) range1000 none ∧
    calculateBounds parseOnly1000 range1000 { forceNow := none } =
      calculateBounds parseOnly1000 range1000 { forceNow := none } :=
  getTime_deterministic parseOnly1000 isoOfInt (some sampleIndexPattern)
    (some sampleIndexPattern) range1000 range1000 none none rfl rfl rfl

/-- C7: the bounds-missing guard is dead code.  `calculateBounds` always
returns a bounds object (the embedded guard matches on an `Option Bounds`
that is by construction `some`), so whenever `getTime` returns `undefined`
the cause is one of the two earlier guards: the index pattern is absent, or
its time field is not found. -/
theorem getTime_bounds_guard_dead
    (parse : DateMathParse) (toISOString : Moment → String)
    (indexPattern : Option IIndexPattern) (timeRange : TimeRange)
    (forceNow : Option JSDate)
    (h : getTime parse toISOString indexPattern timeRange forceNow = none) :
    indexPattern = none ∨
      ∃ ip, indexPattern = some ip ∧
        ip.fields.find? (fun field => some field.name == ip.timeFieldName) = none := by
  match indexPattern with
  | none => exact Or.inl rfl
  | some ip =>
    cases hfind : ip.fields.find?
        (fun field => some field.name == ip.timeFieldName) with
    | none => exact Or.inr ⟨ip, rfl, hfind⟩
    | some tf =>
      rw [getTime_found timeRange forceNow hfind] at h
      exact absurd h (by simp)

/-- C7 at a concrete input on which `getTime` returns `undefined`. -/
theorem getTime_bounds_guard_dead_witness :
    (some emptyIndexPattern : Option IIndexPattern) = none ∨
      ∃ ip, (some emptyIndexPattern : Option IIndexPattern) = some ip ∧
        ip.fields.find? (fun field => some field.name == ip.timeFieldName) = none :=
  getTime_bounds_guard_dead parseNone isoOfInt (some emptyIndexPattern)
    sampleRange none (by decide)

/-- C8: once the index pattern is defined and its time field found,
`getTime` always returns a filter — even when neither bound parses to an
instant; an unparseable bound merely omits its `gte` or `lte` key, and the
returned params always contain `format = "strict_date_optional_time"`. -/
theorem getTime_filter_despite_unparseable_bounds
    (parse : DateMathParse) (toISOString : Moment → String)
    (ip : IIndexPattern) (tf : IFieldType) (timeRange : TimeRange)
    (forceNow : Option JSDate)
    (hfind : ip.fields.find? (fun field => some field.name == ip.timeFieldName) = some tf) :
    ∃ f, getTime parse toISOString (some ip) timeRange forceNow = some f ∧
      f.params.format = some "strict_date_optional_time" ∧
      ((calculateBounds parse timeRange { forceNow := forceNow }).min = none →
        f.params.gte = none) ∧
      ((calculateBounds parse timeRange { forceNow := forceNow }).max = none →
        f.params.lte = none) := by
  refine ⟨_, getTime_found timeRange forceNow hfind, rfl, fun hmin => ?_, fun hmax => ?_⟩
  · simp [buildRangeFilter, hmin]
  · simp [buildRangeFilter, hmax]

/-- C8 at a concrete input: `parseNone` parses neither bound, yet a filter
with only the `format` key is returned. -/
theorem getTime_filter_despite_unparseable_bounds_witness :
    ∃ f, getTime parseNone isoOfInt (some sampleIndexPattern) sampleRange none = some f ∧
      f.params.format = some "strict_date_optional_time" ∧
      ((calculateBounds parseNone sampleRange { forceNow := none }).min = none →
        f.params.gte = none) ∧
      ((calculateBounds parseNone sampleRange { forceNow := none }).max = none →
        f.params.lte = none) :=
  getTime_filter_despite_unparseable_bounds parseNone isoOfInt sampleIndexPattern
    { name := "timestamp" } sampleRange none (by decide)

/-- C9: the two bounds are handled independently.  With the time field
found, if only `from` parses the emitted filter's params carry `gte` (the
rendered lower bound) and no `lte`; if only `to` parses they carry `lte`
(the rendered upper bound) and no `gte`. -/
theorem getTime_bounds_independent
    (parse : DateMathParse) (toISOString : Moment → String)
    (ip : IIndexPattern) (tf : IFieldType) (timeRange : TimeRange)
    (forceNow : Option JSDate)
    (hfind : ip.fields.find? (fun field => some field.name == ip.timeFieldName) = some tf) :
    (∀ m, parse timeRange.«from» { forceNow := forceNow } = some m →
      parse timeRange.«to» { roundUp := true, forceNow := forceNow } = none →
      ∃ f, getTime parse toISOString (some ip) timeRange forceNow = some f ∧
        f.params.gte = some (toISOString m) ∧ f.params.lte = none) ∧
    (∀ m, parse timeRange.«to» { roundUp := true, forceNow := forceNow } = some m →
      parse timeRange.«from» { forceNow := forceNow } = none →
      ∃ f, getTime parse toISOString (some ip) timeRange forceNow = some f ∧
        f.params.lte = some (toISOString m) ∧ f.params.gte = none) := by
  constructor
  · intro m hm hn
    refine ⟨_, getTime_found timeRange forceNow hfind, ?_, ?_⟩
    · simp [buildRangeFilter, calculateBounds, hm]
    · simp [buildRangeFilter, calculateBounds, hn]
  · intro m hm hn
    refine ⟨_, getTime_found timeRange forceNow hfind, ?_, ?_⟩
    · simp [buildRangeFilter, calculateBounds, hm]
    · simp [buildRangeFilter, calculateBounds, hn]

/-- C9 at concrete inputs: under `parseOnly1000` exactly one bound of
`rangeFromOnly` (resp. `rangeToOnly`) parses, and the filter constrains
only that side. -/
theorem getTime_bounds_independent_witness :
    (∃ f, getTime parseOnly1000 isoOfInt (some sampleIndexPattern) rangeFromOnly none = some f ∧
      f.params.gte = some (isoOfInt 1000) ∧ f.params.lte = none) ∧
    (∃ f, getTime parseOnly1000 isoOfInt (some sampleIndexPattern) rangeToOnly none = some f ∧
      f.params.lte = some (isoOfInt 1999) ∧ f.params.gte = none) :=
  ⟨(getTime_bounds_independent parseOnly1000 isoOfInt sampleIndexPattern
      { name := "timestamp" } rangeFromOnly none (by decide)).1 1000 rfl rfl,
   (getTime_bounds_independent parseOnly1000 isoOfInt sampleIndexPattern
      { name := "timestamp" } rangeToOnly none (by decide)).2 1999 rfl rfl⟩

end GetTime
